import Mathlib

/-!
Verification of the Authente mail dispatcher (`pkg/email/email.go`) and the
password utility (`pkg/password`), as a shallow embedding in Lean 4.

The network (TLS dial, SMTP relay responses, `smtp.SendMail`) is modelled as
an adversarial oracle: each protocol stage either succeeds or fails with an
arbitrary error string chosen by the relay.  The code under verification is
the Go control flow of `Send` / `sendUsingTLS` / `SendOTP`, translated
statement by statement; each network touch is recorded in an event trace so
that temporal claims ("the data phase is never opened") become statements
about the trace.
-/

namespace email

/-- The five header keys put into the Go `headers` map in `Send`
    (`email.go` lines 46-51). `from` is a Lean keyword, hence `fromAddr`. -/
inductive HeaderKey where
  | fromAddr
  | toAddr
  | subject
  | mimeVersion
  | contentType
deriving DecidableEq, Repr

/-- The Go map key string for each header. -/
def headerName : HeaderKey → String
  | .fromAddr => "From"
  | .toAddr => "To"
  | .subject => "Subject"
  | .mimeVersion => "MIME-Version"
  | .contentType => "Content-Type"

/-- Go `strings.Join(to, ",")`. -/
def joinComma : List String → String
  | [] => ""
  | [x] => x
  | x :: xs => x ++ "," ++ joinComma xs

/-- The value stored in the Go `headers` map for each key
    (`email.go` lines 47-51). -/
def headerValue (fromAddr : String) (rcpts : List String) (subject : String) :
    HeaderKey → String
  | .fromAddr => fromAddr
  | .toAddr => joinComma rcpts
  | .subject => subject
  | .mimeVersion => "1.0"
  | .contentType => "text/html; charset=\"utf-8\""

/-- One rendered header line: Go `fmt.Sprintf("%s: %s\r\n", k, v)`. -/
def headerLine (fromAddr : String) (rcpts : List String) (subject : String)
    (k : HeaderKey) : String :=
  headerName k ++ ": " ++ headerValue fromAddr rcpts subject k ++ "\r\n"

/-- The envelope built by `Send` (`email.go` lines 53-58).  Go iterates the
    `headers` map with `for k, v := range headers`; Go map iteration order is
    unspecified and randomized, so the builder is parameterized by the
    iteration order actually taken, an arbitrary permutation of the five
    keys. -/
def buildMessage (order : List HeaderKey) (fromAddr : String)
    (rcpts : List String) (subject body : String) : String :=
  String.join (order.map (headerLine fromAddr rcpts subject)) ++ "\r\n" ++ body

/-- All five keys of the Go `headers` map. -/
def allHeaderKeys : List HeaderKey :=
  [.fromAddr, .toAddr, .subject, .mimeVersion, .contentType]

/-- An iteration order the Go runtime may produce for the five-entry map:
    any permutation of the five keys. -/
def validOrder (order : List HeaderKey) : Prop :=
  order.Perm allHeaderKeys

instance (order : List HeaderKey) : Decidable (validOrder order) :=
  inferInstanceAs (Decidable (order.Perm allHeaderKeys))

/-- The `email.Client` struct (`email.go` lines 15-21). -/
structure Client where
  Host : String
  Port : Int
  Username : String
  Password : String
  From : String
deriving DecidableEq, Repr

/-- `NewClient` (`email.go` lines 24-32). -/
def NewClient (host : String) (port : Int) (username password fromAddr : String) :
    Client :=
  { Host := host, Port := port, Username := username, Password := password,
    From := fromAddr }

/-- `smtp.PlainAuth("", c.Username, c.Password, c.Host)` (`email.go` line 62). -/
structure PlainAuth where
  identity : String
  username : String
  password : String
  host : String
deriving DecidableEq, Repr

/-- Go `net.JoinHostPort(host, port)`: wraps the host in brackets when it
    contains a colon. -/
def joinHostPort (host port : String) : String :=
  if host.contains ':' then "[" ++ host ++ "]" ++ ":" ++ port
  else host ++ ":" ++ port

/-- Network events performed by `sendUsingTLS`, in order of occurrence. -/
inductive TLSEvent where
  | dial (addr : String)
  | newClient (host : String)
  | authCmd
  | mailCmd (fromAddr : String)
  | rcptCmd (addr : String)
  | dataCmd
  | writeMsg (msg : String)
  | closeWriter
  | quitCmd
deriving DecidableEq, Repr

/-- The relay side of one TLS session: for each protocol stage, either
    success (`none`) or failure with an error string chosen by the relay.
    `hasAuthExt` is the result of `client.Extension("AUTH")`. -/
structure Relay where
  dialErr : Option String
  newClientErr : Option String
  hasAuthExt : Bool
  authErr : Option String
  mailErr : Option String
  rcptErr : String → Option String
  dataErr : Option String
  writeErr : Option String
  closeErr : Option String
  quitErr : Option String

/-- The `for _, addr := range to { client.Rcpt(addr) }` loop
    (`email.go` lines 109-113): stops at the first rejected recipient with
    the wrapped error. -/
def rcptLoop (r : Relay) : List String → Except String Unit × List TLSEvent
  | [] => (.ok (), [])
  | a :: rest =>
    match r.rcptErr a with
    | some e => (.error ("rcpt to " ++ a ++ " failed: " ++ e), [.rcptCmd a])
    | none =>
      let out := rcptLoop r rest
      (out.1, .rcptCmd a :: out.2)

/-- The tail of `sendUsingTLS` after authentication (`email.go` lines
    105-131): MAIL, the RCPT loop, DATA, write, close, QUIT.  `acc` is the
    trace of events already performed. -/
def tlsMailAndData (r : Relay) (fromAddr : String) (rcpts : List String)
    (msg : String) (acc : List TLSEvent) : Except String Unit × List TLSEvent :=
  match r.mailErr with
  | some e => (.error ("mail from failed: " ++ e), acc ++ [.mailCmd fromAddr])
  | none =>
    let acc := acc ++ [.mailCmd fromAddr]
    match rcptLoop r rcpts with
    | (.error e, tr) => (.error e, acc ++ tr)
    | (.ok _, tr) =>
      let acc := acc ++ tr
      match r.dataErr with
      | some e => (.error ("data command failed: " ++ e), acc ++ [.dataCmd])
      | none =>
        let acc := acc ++ [.dataCmd]
        match r.writeErr with
        | some e => (.error ("write message failed: " ++ e), acc ++ [.writeMsg msg])
        | none =>
          let acc := acc ++ [.writeMsg msg]
          match r.closeErr with
          | some e => (.error ("close writer failed: " ++ e), acc ++ [.closeWriter])
          | none =>
            let acc := acc ++ [.closeWriter]
            match r.quitErr with
            | some e => (.error ("quit failed: " ++ e), acc ++ [.quitCmd])
            | none => (.ok (), acc ++ [.quitCmd])

/-- `sendUsingTLS` (`email.go` lines 78-132): TLS dial, client construction,
    optional AUTH (only when `auth != nil` and the relay advertises the AUTH
    extension), then MAIL/RCPT/DATA/QUIT.  Returns the Go error result
    together with the trace of network events performed. -/
def sendUsingTLS (r : Relay) (c : Client) (addr : String)
    (auth : Option PlainAuth) (fromAddr : String) (rcpts : List String)
    (msg : String) : Except String Unit × List TLSEvent :=
  match r.dialErr with
  | some e => (.error ("tls dial: " ++ e), [.dial addr])
  | none =>
    match r.newClientErr with
    | some e => (.error ("new smtp client: " ++ e), [.dial addr, .newClient c.Host])
    | none =>
      let acc : List TLSEvent := [.dial addr, .newClient c.Host]
      match auth with
      | none => tlsMailAndData r fromAddr rcpts msg acc
      | some _ =>
        if r.hasAuthExt then
          match r.authErr with
          | some e => (.error ("auth failed: " ++ e), acc ++ [.authCmd])
          | none => tlsMailAndData r fromAddr rcpts msg (acc ++ [.authCmd])
        else tlsMailAndData r fromAddr rcpts msg acc

/-- Transport-level events performed by `Send`: an `smtp.SendMail` attempt or
    a `sendUsingTLS` attempt, each recorded with its full argument list. -/
inductive SendEvent where
  | sendMailCall (addr fromAddr : String) (rcpts : List String) (msg : String)
  | tlsCall (addr fromAddr : String) (rcpts : List String) (msg : String)
deriving DecidableEq, Repr

/-- The whole external world one `Send` call interacts with: the relay for
    the TLS path and the outcome of `smtp.SendMail` as a function of its
    arguments. -/
structure Transport where
  relay : Relay
  sendMailRes : String → String → List String → String → Option String

/-- `from` as computed by `Send` (`email.go` lines 40-43). -/
def fromOf (c : Client) : String :=
  if c.From = "" then c.Username else c.From

/-- `addr := net.JoinHostPort(c.Host, strconv.Itoa(c.Port))` (line 60). -/
def addrOf (c : Client) : String :=
  joinHostPort c.Host (toString c.Port)

/-- `auth := smtp.PlainAuth("", c.Username, c.Password, c.Host)` (line 62). -/
def plainAuthOf (c : Client) : PlainAuth :=
  { identity := "", username := c.Username, password := c.Password,
    host := c.Host }

/-- The envelope `Send` builds for a given map iteration order. -/
def msgOf (order : List HeaderKey) (c : Client) (rcpts : List String)
    (subject body : String) : String :=
  buildMessage order (fromOf c) rcpts subject body

/-- `Send` (`email.go` lines 35-75): empty-recipient precondition, envelope
    build (once — the same bytes are reused by both attempts), then port 465
    goes straight to `sendUsingTLS`, any other port tries `smtp.SendMail`
    first and falls back to `sendUsingTLS` on failure (the first error is
    only logged).  Returns the Go error result and the trace of transport
    invocations. -/
def Send (w : Transport) (order : List HeaderKey) (c : Client)
    (rcpts : List String) (subject body : String) :
    Except String Unit × List SendEvent :=
  if rcpts.length = 0 then (.error "no recipients specified", [])
  else
    let fromAddr := fromOf c
    let msg := buildMessage order fromAddr rcpts subject body
    let addr := addrOf c
    if c.Port = 465 then
      ((sendUsingTLS w.relay c addr (some (plainAuthOf c)) fromAddr rcpts msg).1,
       [.tlsCall addr fromAddr rcpts msg])
    else
      match w.sendMailRes addr fromAddr rcpts msg with
      | none => (.ok (), [.sendMailCall addr fromAddr rcpts msg])
      | some _ =>
        ((sendUsingTLS w.relay c addr (some (plainAuthOf c)) fromAddr rcpts msg).1,
         [.sendMailCall addr fromAddr rcpts msg, .tlsCall addr fromAddr rcpts msg])

/-- `SendOTP` (`email.go` lines 135-139), with the body literal from line
    137. -/
def SendOTP (w : Transport) (order : List HeaderKey) (c : Client)
    (toRcpt code : String) : Except String Unit × List SendEvent :=
  Send w order c [toRcpt] "Your verification code"
    ("<p>Your verification code is <strong>" ++ code ++
      "</strong>. It will expire in 10 minutes.</p>")

/-- The OTP body template of `SendOTP`, named for the statement of C8. -/
def otpBody (code : String) : String :=
  "<p>Your verification code is <strong>" ++ code ++
    "</strong>. It will expire in 10 minutes.</p>"

/-- A sample map iteration order (the declaration order of the Go literal). -/
def sampleOrder : List HeaderKey := allHeaderKeys

/-- A sample client on a STARTTLS-convention port. -/
def sampleClient : Client := NewClient "smtp.x.com" 587 "u@x.com" "pw" "noreply@x.com"

/-- A sample client on the implicit-TLS port. -/
def sampleClient465 : Client := NewClient "smtp.x.com" 465 "u@x.com" "pw" "noreply@x.com"

/-- A relay that accepts every stage of the session. -/
def okRelay : Relay :=
  { dialErr := none, newClientErr := none, hasAuthExt := true,
    authErr := none, mailErr := none, rcptErr := fun _ => none,
    dataErr := none, writeErr := none, closeErr := none, quitErr := none }

/-- A relay that refuses the TLS connection. -/
def badDialRelay : Relay := { okRelay with dialErr := some "connection refused" }

end email

namespace password

/-- Go `strconv.Atoi`: optional sign, then decimal digits, rejecting the
    empty string, any non-digit, and 64-bit overflow (Go reports overflow
    with a non-nil error, which the caller of `Atoi` in `Hash` treats as
    unparseable). -/
def atoi (s : String) : Option Int :=
  match s.data with
  | [] => none
  | c :: rest =>
    let neg : Bool := c = '-'
    let digits : List Char := if c = '-' ∨ c = '+' then rest else c :: rest
    if digits = [] then none
    else if digits.all (fun d => d.isDigit) then
      let n : Nat := digits.foldl (fun a d => a * 10 + (d.toNat - 48)) 0
      if neg then
        if n ≤ 2 ^ 63 then some (-(n : Int)) else none
      else
        if n ≤ 2 ^ 63 - 1 then some (n : Int) else none
    else none

/-- `bcrypt.DefaultCost`. -/
def DefaultCost : Int := 10

/-- `bcrypt.MinCost`. -/
def MinCost : Int := 4

/-- `bcrypt.MaxCost`. -/
def MaxCost : Int := 31

/-- The cost selection in `Hash` (`part_000` lines 11-16): start from the
    default, override with `BCRYPT_COST` when it is set and parses.  Go
    `os.Getenv` returns `""` for an unset variable, and the code only
    consults `Atoi` when the value is non-empty. -/
def hashCost (envVal : String) : Int :=
  if envVal = "" then DefaultCost
  else
    match atoi envVal with
    | some parsed => parsed
    | none => DefaultCost

/-- The decimal digit character for `d < 10`. -/
def digitChar (d : Nat) : Char := Char.ofNat (48 + d)

/-- Little-endian decimal digits of `n`, fuel-indexed so the recursion is
    structural. -/
def natCharsAux : Nat → Nat → List Char
  | 0, _ => []
  | fuel + 1, n =>
    if n < 10 then [digitChar n]
    else digitChar (n % 10) :: natCharsAux fuel (n / 10)

/-- Little-endian decimal digit string of `n` (`n + 1` digits always
    suffice). -/
def natChars (n : Nat) : List Char := natCharsAux (n + 1) n

/-- Value of a little-endian digit list. -/
def charsNat : List Char → Nat
  | [] => 0
  | c :: cs => (c.toNat - 48) + 10 * charsNat cs

/-- Parse a little-endian digit list: fails on the empty list and on any
    non-digit character. -/
def parseNat (cs : List Char) : Option Nat :=
  if cs = [] then none
  else if cs.all (fun c => c.isDigit) then some (charsNat cs)
  else none

/-- Modelled from the spec: the cost-parameterized one-way derivation at the
    heart of the external bcrypt primitive (`golang.org/x/crypto/bcrypt`,
    not part of this repository).  The spec fixes only its interface — an
    "adaptive cost-parameterized hash function" deriving a key from the
    password, the salt and the cost — so the mixing itself is a concrete
    stand-in; every theorem below depends only on it being a function of
    `(cost, salt, password)`. -/
def bcryptKDF (cost salt : Nat) (password : String) : Nat :=
  (password.data.foldl (fun a ch => a * 131 + ch.toNat) 7) * (2 * salt + 1) +
    31 * cost + 1

/-- Modelled from the spec: the digest rendered by the external bcrypt
    primitive, an opaque string from which verification can recover the
    cost, the salt and the derived key. -/
def encodeDigest (cost salt key : Nat) : String :=
  String.mk (natChars (Nat.pair (Nat.pair cost salt) key))

/-- Modelled from the spec: digest parsing as done by bcrypt verification;
    fails (so verification reports a malformed digest) on any string that is
    not a rendered digest. -/
def parseDigest (s : String) : Option (Nat × Nat × Nat) :=
  match parseNat s.data with
  | none => none
  | some p =>
    some ((Nat.unpair (Nat.unpair p).1).1,
      ((Nat.unpair (Nat.unpair p).1).2, (Nat.unpair p).2))

/-- Modelled from the spec: `bcrypt.GenerateFromPassword`.  A cost below the
    minimum is replaced by the default, a cost above the maximum is an
    error, an over-long password (more than 72 bytes) is an error, and
    otherwise the digest encodes the cost, the salt and the derived key. -/
def bcryptGenerate (cost : Int) (salt : Nat) (password : String) :
    Except String String :=
  let cost1 : Int := if cost < MinCost then DefaultCost else cost
  if cost1 > MaxCost then
    .error ("crypto/bcrypt: cost " ++ toString cost1 ++
      " is outside allowed range")
  else if password.utf8ByteSize > 72 then
    .error "bcrypt: password length exceeds 72 bytes"
  else
    .ok (encodeDigest cost1.toNat salt (bcryptKDF cost1.toNat salt password))

/-- Modelled from the spec: `bcrypt.CompareHashAndPassword`.  Parses the
    digest (reporting malformed input as an error), checks the embedded
    cost, re-derives the key from the candidate password with the embedded
    cost and salt, and compares. -/
def bcryptCompare (hashed password : String) : Except String Unit :=
  match parseDigest hashed with
  | none => .error "crypto/bcrypt: hashedSecret is not a bcrypted password"
  | some (cost, salt, key) =>
    if cost < 4 ∨ cost > 31 then
      .error "crypto/bcrypt: cost is outside allowed range"
    else if bcryptKDF cost salt password = key then .ok ()
    else .error "crypto/bcrypt: hashedPassword is not the hash of the given password"

/-- `Hash` (`part_000` lines 10-23): select the cost from the environment
    value, delegate to the bcrypt primitive, propagate its error.  The
    environment value and the salt drawn by the primitive are explicit
    parameters of the embedding. -/
def Hash (envVal : String) (salt : Nat) (password : String) :
    Except String String :=
  match bcryptGenerate (hashCost envVal) salt password with
  | .error err => .error err
  | .ok hashedPassword => .ok hashedPassword

/-- `Check` (`part_000` lines 26-29): true exactly when the bcrypt
    comparison returns no error; total by construction. -/
def Check (password hash : String) : Bool :=
  match bcryptCompare hash password with
  | .ok _ => true
  | .error _ => false

end password

/-! ## Theorems -/

namespace email

/-- The RCPT loop succeeds when the relay accepts every recipient, issuing
    one RCPT command per recipient in list order. -/
theorem rcptLoop_ok (r : Relay) (rcpts : List String)
    (h : ∀ b ∈ rcpts, r.rcptErr b = none) :
    rcptLoop r rcpts = (.ok (), rcpts.map .rcptCmd) := by
  induction rcpts with
  | nil => rfl
  | cons a rest ih =>
    have ha : r.rcptErr a = none := h a (List.mem_cons_self a rest)
    have ih := ih fun b hb => h b (List.mem_cons_of_mem a hb)
    simp [rcptLoop, ha, ih]

/-- The RCPT loop stops at the first rejected recipient: recipients after it
    are never declared and the error names the rejected address. -/
theorem rcptLoop_firstErr (r : Relay) (pre post : List String) (a e : String)
    (hpre : ∀ b ∈ pre, r.rcptErr b = none) (ha : r.rcptErr a = some e) :
    rcptLoop r (pre ++ a :: post) =
      (.error ("rcpt to " ++ a ++ " failed: " ++ e),
       pre.map .rcptCmd ++ [.rcptCmd a]) := by
  induction pre with
  | nil => simp [rcptLoop, ha]
  | cons b rest ih =>
    have hb : r.rcptErr b = none := hpre b (List.mem_cons_self b rest)
    have ih := ih fun x hx => hpre x (List.mem_cons_of_mem b hx)
    simp [rcptLoop, hb, ih]

/-- When dial, client construction and (possible) authentication succeed,
    `sendUsingTLS` reaches the MAIL stage with a trace prefix that contains
    no data-phase event. -/
theorem sendUsingTLS_reach_mail (r : Relay) (c : Client) (addr : String)
    (auth : Option PlainAuth) (fromAddr : String) (rcpts : List String)
    (msg : String) (hd : r.dialErr = none) (hn : r.newClientErr = none)
    (ha : r.authErr = none) :
    ∃ acc : List TLSEvent,
      sendUsingTLS r c addr auth fromAddr rcpts msg =
        tlsMailAndData r fromAddr rcpts msg acc ∧
      TLSEvent.dataCmd ∉ acc ∧ (∀ m, TLSEvent.writeMsg m ∉ acc) ∧
      TLSEvent.closeWriter ∉ acc := by
  simp only [sendUsingTLS, hd, hn]
  cases auth with
  | none =>
    exact ⟨[.dial addr, .newClient c.Host], rfl, by simp, by simp, by simp⟩
  | some pa =>
    by_cases hx : r.hasAuthExt
    · simp only [hx, if_true, ha]
      exact ⟨[.dial addr, .newClient c.Host, .authCmd], rfl, by simp, by simp,
        by simp⟩
    · simp only [hx, if_false]
      exact ⟨[.dial addr, .newClient c.Host], rfl, by simp, by simp, by simp⟩

end email

/-- C2. In `sendUsingTLS`, when the session reaches recipient declaration
(dial, client construction, optional auth and MAIL FROM all succeed) and the
relay rejects a recipient (the first rejected one being `a`, preceded only
by accepted recipients `pre`), the call returns the error naming `a`, no
DATA command is ever issued, and no message bytes are written. -/
theorem c2_rcpt_rejection_aborts_before_data (r : email.Relay)
    (c : email.Client) (addr : String) (auth : Option email.PlainAuth)
    (fromAddr msg : String) (pre post : List String) (a e : String)
    (hd : r.dialErr = none) (hn : r.newClientErr = none)
    (ha : r.authErr = none) (hm : r.mailErr = none)
    (hpre : ∀ b ∈ pre, r.rcptErr b = none)
    (hr : r.rcptErr a = some e) :
    (email.sendUsingTLS r c addr auth fromAddr (pre ++ a :: post) msg).1 =
        .error ("rcpt to " ++ a ++ " failed: " ++ e) ∧
      email.TLSEvent.dataCmd ∉
        (email.sendUsingTLS r c addr auth fromAddr (pre ++ a :: post) msg).2 ∧
      ∀ m, email.TLSEvent.writeMsg m ∉
        (email.sendUsingTLS r c addr auth fromAddr (pre ++ a :: post) msg).2 := by
  obtain ⟨acc, heq, hnd, hnw, _⟩ :=
    email.sendUsingTLS_reach_mail r c addr auth fromAddr (pre ++ a :: post) msg
      hd hn ha
  have hloop := email.rcptLoop_firstErr r pre post a e hpre hr
  rw [heq]
  simp only [email.tlsMailAndData, hm, hloop]
  refine ⟨by simp, ?_, ?_⟩
  · simp [hnd]
  · intro m
    simp [hnw m]

/-- Witness for C2: a relay that accepts `a@x.com`, rejects `b@x.com` and
would accept `c@x.com`; the send fails naming `b@x.com` and the trace shows
the data phase was never opened. -/
theorem c2_rcpt_rejection_aborts_before_data_witness :
    (email.sendUsingTLS
        { dialErr := none, newClientErr := none, hasAuthExt := true,
          authErr := none, mailErr := none,
          rcptErr := fun b =>
            if b = "b@x.com" then some "550 mailbox unavailable" else none,
          dataErr := none, writeErr := none, closeErr := none,
          quitErr := none }
        (email.NewClient "smtp.x.com" 465 "u@x.com" "pw" "noreply@x.com")
        "smtp.x.com:465" (some (email.plainAuthOf
          (email.NewClient "smtp.x.com" 465 "u@x.com" "pw" "noreply@x.com")))
        "noreply@x.com" ["a@x.com", "b@x.com", "c@x.com"] "msgbytes").1 =
      .error "rcpt to b@x.com failed: 550 mailbox unavailable" ∧
    email.TLSEvent.dataCmd ∉
      (email.sendUsingTLS
        { dialErr := none, newClientErr := none, hasAuthExt := true,
          authErr := none, mailErr := none,
          rcptErr := fun b =>
            if b = "b@x.com" then some "550 mailbox unavailable" else none,
          dataErr := none, writeErr := none, closeErr := none,
          quitErr := none }
        (email.NewClient "smtp.x.com" 465 "u@x.com" "pw" "noreply@x.com")
        "smtp.x.com:465" (some (email.plainAuthOf
          (email.NewClient "smtp.x.com" 465 "u@x.com" "pw" "noreply@x.com")))
        "noreply@x.com" ["a@x.com", "b@x.com", "c@x.com"] "msgbytes").2 := by
  have h := c2_rcpt_rejection_aborts_before_data
    { dialErr := none, newClientErr := none, hasAuthExt := true,
      authErr := none, mailErr := none,
      rcptErr := fun b =>
        if b = "b@x.com" then some "550 mailbox unavailable" else none,
      dataErr := none, writeErr := none, closeErr := none, quitErr := none }
    (email.NewClient "smtp.x.com" 465 "u@x.com" "pw" "noreply@x.com")
    "smtp.x.com:465" (some (email.plainAuthOf
      (email.NewClient "smtp.x.com" 465 "u@x.com" "pw" "noreply@x.com")))
    "noreply@x.com" "msgbytes" ["a@x.com"] ["c@x.com"] "b@x.com"
    "550 mailbox unavailable" rfl rfl rfl rfl (by decide) (by decide)
  exact ⟨h.1, h.2.1⟩

/-- C7. In `sendUsingTLS`, when every stage up to and including the close of
the data phase succeeds (the transmission is committed) and only QUIT fails,
the returned error carries the distinct "quit failed" context, and the trace
certifies the committed transmission: DATA was opened, the full message was
written and the data writer was closed. -/
theorem c7_quit_failure_after_commit (r : email.Relay) (c : email.Client)
    (addr : String) (auth : Option email.PlainAuth) (fromAddr msg : String)
    (rcpts : List String) (e : String)
    (hd : r.dialErr = none) (hn : r.newClientErr = none)
    (ha : r.authErr = none) (hm : r.mailErr = none)
    (hrcpt : ∀ b ∈ rcpts, r.rcptErr b = none)
    (hdata : r.dataErr = none) (hw : r.writeErr = none)
    (hc : r.closeErr = none) (hq : r.quitErr = some e) :
    (email.sendUsingTLS r c addr auth fromAddr rcpts msg).1 =
        .error ("quit failed: " ++ e) ∧
      email.TLSEvent.dataCmd ∈
        (email.sendUsingTLS r c addr auth fromAddr rcpts msg).2 ∧
      email.TLSEvent.writeMsg msg ∈
        (email.sendUsingTLS r c addr auth fromAddr rcpts msg).2 ∧
      email.TLSEvent.closeWriter ∈
        (email.sendUsingTLS r c addr auth fromAddr rcpts msg).2 := by
  obtain ⟨acc, heq, _, _, _⟩ :=
    email.sendUsingTLS_reach_mail r c addr auth fromAddr rcpts msg hd hn ha
  have hloop := email.rcptLoop_ok r rcpts hrcpt
  rw [heq]
  simp only [email.tlsMailAndData, hm, hloop, hdata, hw, hc, hq]
  refine ⟨by simp, ?_, ?_, ?_⟩ <;> simp

/-- Witness for C7: a relay that accepts the whole transaction but rejects
QUIT; the message is committed (data phase fully traced) and the error is
the distinct quit context. -/
theorem c7_quit_failure_after_commit_witness :
    (email.sendUsingTLS
        { dialErr := none, newClientErr := none, hasAuthExt := true,
          authErr := none, mailErr := none, rcptErr := fun _ => none,
          dataErr := none, writeErr := none, closeErr := none,
          quitErr := some "421 closing" }
        (email.NewClient "smtp.x.com" 465 "u@x.com" "pw" "noreply@x.com")
        "smtp.x.com:465" (some (email.plainAuthOf
          (email.NewClient "smtp.x.com" 465 "u@x.com" "pw" "noreply@x.com")))
        "noreply@x.com" ["a@x.com"] "msgbytes").1 =
      .error "quit failed: 421 closing" ∧
    email.TLSEvent.closeWriter ∈
      (email.sendUsingTLS
        { dialErr := none, newClientErr := none, hasAuthExt := true,
          authErr := none, mailErr := none, rcptErr := fun _ => none,
          dataErr := none, writeErr := none, closeErr := none,
          quitErr := some "421 closing" }
        (email.NewClient "smtp.x.com" 465 "u@x.com" "pw" "noreply@x.com")
        "smtp.x.com:465" (some (email.plainAuthOf
          (email.NewClient "smtp.x.com" 465 "u@x.com" "pw" "noreply@x.com")))
        "noreply@x.com" ["a@x.com"] "msgbytes").2 := by
  have h := c7_quit_failure_after_commit
    { dialErr := none, newClientErr := none, hasAuthExt := true,
      authErr := none, mailErr := none, rcptErr := fun _ => none,
      dataErr := none, writeErr := none, closeErr := none,
      quitErr := some "421 closing" }
    (email.NewClient "smtp.x.com" 465 "u@x.com" "pw" "noreply@x.com")
    "smtp.x.com:465" (some (email.plainAuthOf
      (email.NewClient "smtp.x.com" 465 "u@x.com" "pw" "noreply@x.com")))
    "noreply@x.com" "msgbytes" ["a@x.com"] "421 closing"
    rfl rfl rfl rfl (by decide) rfl rfl rfl rfl
  exact ⟨h.1, h.2.2.2⟩

/-- C1. The spec claims two independent invocations of the envelope-building
step of `Send` produce byte-identical envelopes with deterministic header
order across builds.  The code emits headers by ranging over a Go map, whose
iteration order is randomized per invocation: two valid iteration orders of
the same five-entry map yield different envelope bytes for the same fixed
configuration and message, so the claimed determinism fails on the code. -/
theorem c1_envelope_build_nondeterministic :
    email.validOrder
      [.fromAddr, .toAddr, .subject, .mimeVersion, .contentType] ∧
    email.validOrder
      [.toAddr, .fromAddr, .subject, .mimeVersion, .contentType] ∧
    email.buildMessage
        [.fromAddr, .toAddr, .subject, .mimeVersion, .contentType]
        "noreply@x.com" ["a@b.com"] "Hi" "<p>hi</p>" ≠
      email.buildMessage
        [.toAddr, .fromAddr, .subject, .mimeVersion, .contentType]
        "noreply@x.com" ["a@b.com"] "Hi" "<p>hi</p>" := by
  refine ⟨by decide, by decide, ?_⟩
  decide

/-- C3. For every port other than 465, with a non-empty recipient list, if
the `smtp.SendMail` (opportunistic-upgrade) attempt fails for any reason,
`Send` then invokes the implicit-TLS path against the same address with
exactly the same rendered envelope bytes and exactly the same recipient
list: the trace is the SendMail call followed by the TLS call with
identical arguments. -/
theorem c3_fallback_reuses_envelope (w : email.Transport)
    (order : List email.HeaderKey) (c : email.Client) (rcpts : List String)
    (subject body e1 : String) (hp : c.Port ≠ 465) (hne : rcpts ≠ [])
    (hm : w.sendMailRes (email.addrOf c) (email.fromOf c) rcpts
        (email.msgOf order c rcpts subject body) = some e1) :
    (email.Send w order c rcpts subject body).2 =
      [.sendMailCall (email.addrOf c) (email.fromOf c) rcpts
        (email.msgOf order c rcpts subject body),
       .tlsCall (email.addrOf c) (email.fromOf c) rcpts
        (email.msgOf order c rcpts subject body)] := by
  have hlen : ¬ rcpts.length = 0 := by
    simpa [List.length_eq_zero] using hne
  simp only [email.msgOf] at hm
  simp only [email.Send, email.msgOf, if_neg hlen, if_neg hp, hm]

/-- Witness for C3: with a relay and an `smtp.SendMail` that always fails,
the trace of one send is exactly the failed opportunistic call followed by
the TLS call with the same address, sender, recipients and bytes. -/
theorem c3_fallback_reuses_envelope_witness :
    (email.Send
        { relay := email.okRelay,
          sendMailRes := fun _ _ _ _ => some "starttls not supported" }
        email.sampleOrder email.sampleClient ["a@x.com"] "Hi" "<p>hi</p>").2 =
      [.sendMailCall (email.addrOf email.sampleClient)
        (email.fromOf email.sampleClient) ["a@x.com"]
        (email.msgOf email.sampleOrder email.sampleClient ["a@x.com"] "Hi"
          "<p>hi</p>"),
       .tlsCall (email.addrOf email.sampleClient)
        (email.fromOf email.sampleClient) ["a@x.com"]
        (email.msgOf email.sampleOrder email.sampleClient ["a@x.com"] "Hi"
          "<p>hi</p>")] :=
  c3_fallback_reuses_envelope
    { relay := email.okRelay,
      sendMailRes := fun _ _ _ _ => some "starttls not supported" }
    email.sampleOrder email.sampleClient ["a@x.com"] "Hi" "<p>hi</p>"
    "starttls not supported" (by decide) (by decide) rfl

/-- C4. When the opportunistic attempt fails and the implicit-TLS fallback
also fails, `Send` returns exactly the fallback's error; moreover the first
attempt's error value never influences the returned value: replacing it by
any other error string yields the same result. -/
theorem c4_fallback_error_returned (w : email.Transport)
    (order : List email.HeaderKey) (c : email.Client) (rcpts : List String)
    (subject body e1 e2 : String) (hp : c.Port ≠ 465) (hne : rcpts ≠ [])
    (hm : w.sendMailRes (email.addrOf c) (email.fromOf c) rcpts
        (email.msgOf order c rcpts subject body) = some e1)
    (ht : (email.sendUsingTLS w.relay c (email.addrOf c)
        (some (email.plainAuthOf c)) (email.fromOf c) rcpts
        (email.msgOf order c rcpts subject body)).1 = .error e2) :
    (email.Send w order c rcpts subject body).1 = .error e2 ∧
      ∀ e1x, (email.Send
          { relay := w.relay, sendMailRes := fun _ _ _ _ => some e1x }
          order c rcpts subject body).1 = .error e2 := by
  have hlen : ¬ rcpts.length = 0 := by
    simpa [List.length_eq_zero] using hne
  simp only [email.msgOf] at hm ht
  constructor
  · simp only [email.Send, if_neg hlen, if_neg hp, hm]
    exact ht
  · intro e1x
    simp only [email.Send, if_neg hlen, if_neg hp]
    exact ht

/-- Witness for C4: SendMail fails with one error, the TLS dial is refused;
the caller sees only the fallback's "tls dial" error. -/
theorem c4_fallback_error_returned_witness :
    (email.Send
        { relay := email.badDialRelay,
          sendMailRes := fun _ _ _ _ => some "starttls not supported" }
        email.sampleOrder email.sampleClient ["a@x.com"] "Hi" "<p>hi</p>").1 =
      .error "tls dial: connection refused" :=
  (c4_fallback_error_returned
    { relay := email.badDialRelay,
      sendMailRes := fun _ _ _ _ => some "starttls not supported" }
    email.sampleOrder email.sampleClient ["a@x.com"] "Hi" "<p>hi</p>"
    "starttls not supported" "tls dial: connection refused"
    (by decide) (by decide) rfl rfl).1

/-- C5. For every non-empty recipient list: with port 465 the trace of
`Send` is exactly one implicit-TLS invocation (the opportunistic routine is
never invoked); with any other port the first transport invocation is the
opportunistic `smtp.SendMail` call. -/
theorem c5_port_selects_strategy (w : email.Transport)
    (order : List email.HeaderKey) (c : email.Client) (rcpts : List String)
    (subject body : String) (hne : rcpts ≠ []) :
    (c.Port = 465 →
      (email.Send w order c rcpts subject body).2 =
        [.tlsCall (email.addrOf c) (email.fromOf c) rcpts
          (email.msgOf order c rcpts subject body)]) ∧
    (c.Port ≠ 465 →
      (email.Send w order c rcpts subject body).2.head? =
        some (.sendMailCall (email.addrOf c) (email.fromOf c) rcpts
          (email.msgOf order c rcpts subject body))) := by
  have hlen : ¬ rcpts.length = 0 := by
    simpa [List.length_eq_zero] using hne
  constructor
  · intro hp
    simp only [email.Send, if_neg hlen, if_pos hp, email.msgOf]
  · intro hp
    cases hsm : w.sendMailRes (email.addrOf c) (email.fromOf c) rcpts
        (email.buildMessage order (email.fromOf c) rcpts subject body) with
    | none =>
      simp only [email.Send, if_neg hlen, if_neg hp, hsm, email.msgOf,
        List.head?]
    | some e =>
      simp only [email.Send, if_neg hlen, if_neg hp, hsm, email.msgOf,
        List.head?]

/-- Witness for C5: on port 465 the only transport invocation is the TLS
call; on port 587 the first invocation is the SendMail call. -/
theorem c5_port_selects_strategy_witness :
    (email.Send { relay := email.okRelay, sendMailRes := fun _ _ _ _ => none }
        email.sampleOrder email.sampleClient465 ["a@x.com"] "Hi"
        "<p>hi</p>").2 =
      [.tlsCall (email.addrOf email.sampleClient465)
        (email.fromOf email.sampleClient465) ["a@x.com"]
        (email.msgOf email.sampleOrder email.sampleClient465 ["a@x.com"] "Hi"
          "<p>hi</p>")] ∧
    (email.Send { relay := email.okRelay, sendMailRes := fun _ _ _ _ => none }
        email.sampleOrder email.sampleClient ["a@x.com"] "Hi"
        "<p>hi</p>").2.head? =
      some (.sendMailCall (email.addrOf email.sampleClient)
        (email.fromOf email.sampleClient) ["a@x.com"]
        (email.msgOf email.sampleOrder email.sampleClient ["a@x.com"] "Hi"
          "<p>hi</p>")) :=
  ⟨(c5_port_selects_strategy
      { relay := email.okRelay, sendMailRes := fun _ _ _ _ => none }
      email.sampleOrder email.sampleClient465 ["a@x.com"] "Hi" "<p>hi</p>"
      (by decide)).1 (by decide),
   (c5_port_selects_strategy
      { relay := email.okRelay, sendMailRes := fun _ _ _ _ => none }
      email.sampleOrder email.sampleClient ["a@x.com"] "Hi" "<p>hi</p>"
      (by decide)).2 (by decide)⟩

/-- C6. `Send` with an empty recipient list returns the precondition error
"no recipients specified" and performs zero transport invocations: the
event trace is empty, for every transport, client, order, subject and
body. -/
theorem c6_empty_recipients_no_network (w : email.Transport)
    (order : List email.HeaderKey) (c : email.Client) (subject body : String) :
    email.Send w order c [] subject body =
      (.error "no recipients specified", []) := rfl

/-- C8. `SendOTP` delegates to `Send` with the single-element recipient
list `[toRcpt]`, the subject "Your verification code", and the fixed OTP
body template; and that body contains the code as a literal substring. -/
theorem c8_sendotp_delegates (w : email.Transport)
    (order : List email.HeaderKey) (c : email.Client) (toRcpt code : String) :
    email.SendOTP w order c toRcpt code =
      email.Send w order c [toRcpt] "Your verification code"
        (email.otpBody code) ∧
    ∃ p q, email.otpBody code = p ++ code ++ q :=
  ⟨rfl,
   ⟨"<p>Your verification code is <strong>",
    "</strong>. It will expire in 10 minutes.</p>", rfl⟩⟩

namespace password

/-- For a single decimal digit, `digitChar` produces a digit character whose
    code point recovers the digit. -/
theorem digitChar_spec :
    ∀ d, d < 10 → (digitChar d).isDigit = true ∧ (digitChar d).toNat = 48 + d := by
  decide

/-- With enough fuel, the rendered digit list of `n` is non-empty, consists
    of digits only, and evaluates back to `n`. -/
theorem natCharsAux_spec :
    ∀ fuel n, n < 10 ^ (fuel + 1) →
      natCharsAux (fuel + 1) n ≠ [] ∧
      (natCharsAux (fuel + 1) n).all (fun c => c.isDigit) = true ∧
      charsNat (natCharsAux (fuel + 1) n) = n := by
  intro fuel
  induction fuel with
  | zero =>
    intro n hn
    have h10 : n < 10 := by simpa using hn
    obtain ⟨hd, ht⟩ := digitChar_spec n h10
    simp only [natCharsAux, if_pos h10]
    exact ⟨by simp, by simp [hd], by simp [charsNat, ht]⟩
  | succ fuel ih =>
    intro n hn
    by_cases h10 : n < 10
    · obtain ⟨hd, ht⟩ := digitChar_spec n h10
      rw [natCharsAux, if_pos h10]
      exact ⟨by simp, by simp [hd], by simp [charsNat, ht]⟩
    · rw [natCharsAux, if_neg h10]
      have hdiv : n / 10 < 10 ^ (fuel + 1) := by
        rw [Nat.div_lt_iff_lt_mul (by norm_num)]
        calc n < 10 ^ (fuel + 1 + 1) := hn
          _ = 10 ^ (fuel + 1) * 10 := by ring
      obtain ⟨h1, h2, h3⟩ := ih (n / 10) hdiv
      have hm : n % 10 < 10 := Nat.mod_lt _ (by norm_num)
      obtain ⟨hd, ht⟩ := digitChar_spec (n % 10) hm
      refine ⟨by simp, ?_, ?_⟩
      · simp [List.all_cons, hd, h2]
      · simp only [charsNat, ht, h3]
        omega

/-- Parsing inverts rendering for every natural number. -/
theorem parseNat_natChars (n : Nat) : parseNat (natChars n) = some n := by
  have hpow : n < 10 ^ (n + 1) :=
    lt_of_lt_of_le (Nat.lt_pow_self (by norm_num) n)
      (Nat.pow_le_pow_right (by norm_num) (Nat.le_succ n))
  obtain ⟨h1, h2, h3⟩ := natCharsAux_spec n n hpow
  unfold natChars
  rw [parseNat, if_neg h1, if_pos h2, h3]

/-- Digest parsing inverts digest rendering. -/
theorem parseDigest_encodeDigest (c s k : Nat) :
    parseDigest (encodeDigest c s k) = some (c, s, k) := by
  unfold parseDigest encodeDigest
  rw [show (String.mk (natChars (Nat.pair (Nat.pair c s) k))).data =
        natChars (Nat.pair (Nat.pair c s) k) from rfl,
    parseNat_natChars]
  simp [Nat.unpair_pair]

/-- Any digest produced by the generation primitive verifies against the
    password it was generated from. -/
theorem bcrypt_roundtrip (co : Int) (salt : Nat) (pw d : String)
    (h : bcryptGenerate co salt pw = .ok d) : Check pw d = true := by
  simp only [bcryptGenerate] at h
  by_cases hgt : (if co < MinCost then DefaultCost else co) > MaxCost
  · rw [if_pos hgt] at h
    exact absurd h (by simp)
  · rw [if_neg hgt] at h
    by_cases hlen : pw.utf8ByteSize > 72
    · rw [if_pos hlen] at h
      exact absurd h (by simp)
    · rw [if_neg hlen] at h
      injection h with h2
      subst h2
      have h4 : (4 : Int) ≤ if co < MinCost then DefaultCost else co := by
        unfold MinCost DefaultCost
        split <;> omega
      have h31 : (if co < MinCost then DefaultCost else co) ≤ 31 := by
        unfold MaxCost at hgt
        omega
      have hcond :
          ¬ ((if co < MinCost then DefaultCost else co).toNat < 4 ∨
            (if co < MinCost then DefaultCost else co).toNat > 31) := by
        omega
      simp only [Check, bcryptCompare, parseDigest_encodeDigest, if_neg hcond]
      simp

/-- `Hash` is exactly the bcrypt primitive applied at the environment-derived
    cost. -/
theorem Hash_eq_generate (envVal : String) (salt : Nat) (pw : String) :
    Hash envVal salt pw = bcryptGenerate (hashCost envVal) salt pw := by
  unfold Hash
  cases bcryptGenerate (hashCost envVal) salt pw <;> rfl

end password

/-- C9. The cost factor of the password-hashing operation is taken from the
`BCRYPT_COST` environment value supplied at call time: the default cost is
used whenever the variable is unset (empty) or does not parse as an
integer, the parsed value is used whenever it parses, and `Hash` is the
bcrypt primitive applied at exactly that cost. -/
theorem c9_cost_from_env_at_call :
    (∀ envVal, envVal = "" ∨ password.atoi envVal = none →
      password.hashCost envVal = password.DefaultCost) ∧
    (∀ envVal n, password.atoi envVal = some n →
      password.hashCost envVal = n) ∧
    (∀ envVal salt pw, password.Hash envVal salt pw =
      password.bcryptGenerate (password.hashCost envVal) salt pw) := by
  refine ⟨?_, ?_, fun envVal salt pw => password.Hash_eq_generate envVal salt pw⟩
  · intro envVal h
    by_cases he : envVal = ""
    · simp [password.hashCost, he]
    · rcases h with h | h
      · exact absurd h he
      · simp [password.hashCost, he, h]
  · intro envVal n h
    have hne : envVal ≠ "" := by
      intro he
      rw [he, show password.atoi "" = none from rfl] at h
      exact Option.noConfusion h
    simp [password.hashCost, hne, h]

/-- Witness for C9: an unparseable value and the empty value select the
default cost 10, a parseable value selects its own value. -/
theorem c9_cost_from_env_at_call_witness :
    password.hashCost "notanumber" = password.DefaultCost ∧
    password.hashCost "" = password.DefaultCost ∧
    password.hashCost "12" = 12 :=
  ⟨c9_cost_from_env_at_call.1 "notanumber" (Or.inr (by decide)),
   c9_cost_from_env_at_call.1 "" (Or.inl rfl),
   c9_cost_from_env_at_call.2.1 "12" 12 (by decide)⟩

/-- C10. Round trip of the password utility: every digest `Hash` returns
without error verifies against the password it was produced from, and
`Check` — a total boolean function by construction — returns `false` both on
any digest string the bcrypt parser rejects as malformed and on any
well-formed digest whose embedded key is not the one re-derived from the
candidate password (a non-matching digest). -/
theorem c10_hash_check_roundtrip :
    (∀ envVal salt pw d, password.Hash envVal salt pw = .ok d →
      password.Check pw d = true) ∧
    (∀ pw d, password.parseDigest d = none → password.Check pw d = false) ∧
    (∀ pw d cost salt key,
      password.parseDigest d = some (cost, salt, key) →
      password.bcryptKDF cost salt pw ≠ key →
      password.Check pw d = false) := by
  refine ⟨?_, ?_, ?_⟩
  · intro envVal salt pw d h
    rw [password.Hash_eq_generate] at h
    exact password.bcrypt_roundtrip _ _ _ _ h
  · intro pw d h
    simp only [password.Check, password.bcryptCompare, h]
  · intro pw d cost salt key hparse hne
    simp only [password.Check, password.bcryptCompare, hparse]
    by_cases hc : cost < 4 ∨ cost > 31
    · rw [if_pos hc]
    · rw [if_neg hc, if_neg hne]

/-- Witness for C10: the digest of "pw" at default cost and salt 3 verifies,
a malformed digest string is rejected with `false`, and the same well-formed
digest checked against a different password is rejected with `false`. -/
theorem c10_hash_check_roundtrip_witness :
    password.Check "pw" "282999725298" = true ∧
    password.Check "pw" "not-a-digest" = false ∧
    password.Check "other" "282999725298" = false :=
  ⟨c10_hash_check_roundtrip.1 "" 3 "pw" "282999725298" rfl,
   c10_hash_check_roundtrip.2.1 "pw" "not-a-digest" (by decide),
   c10_hash_check_roundtrip.2.2 "other" "282999725298" 10 3 944737
     (by
       rw [show ("282999725298" : String) =
         password.encodeDigest 10 3 944737 from rfl]
       exact password.parseDigest_encodeDigest 10 3 944737)
     (by decide)⟩
